import Mathlib

/-!
Verification development for the spackler package (src/spackler.go): a
coordination primitive for graceful shutdown.  The Go code is shallowly
embedded: the shared coordinator state behind the reference fields of a
Caddy becomes the structure `SysState`, a Caddy handle becomes the
structure `Caddy` (reference identities plus the value field
`isTopLevel`), and each method becomes a Lean function on these
structures.  Concurrent executions are modelled as folds of a labelled
step function over lists of events.
-/

namespace Spackler

/-- State of the background listener goroutine started by `listen`:
not yet started, blocked on the receive from sigChan, or exited after
closing stopChan. -/
inductive LState
  | idle
  | waiting
  | done
  deriving DecidableEq, Repr

/-- The shared coordinator state that the reference fields of every Caddy
point to, together with the scheduling state of its goroutines:
`onceDone` is the state of the sync.Once `o`; `osRegistered` records
whether signal.Notify has been called on sigChan; `pending` is the
counter of the sync.WaitGroup `wg` (an Int, so that the claim that it
never goes negative is not true by type); `userTasks` is the number of
tracked user goroutines currently running; `listener` the listener
goroutine state; `sigClosed` whether sigChan has been closed;
`stopClosed` whether stopChan has been closed; `notifyDefault` the
boolean passed to NewCaddy. -/
structure SysState where
  onceDone : Bool
  osRegistered : Bool
  pending : Int
  userTasks : Nat
  listener : LState
  sigClosed : Bool
  stopClosed : Bool
  notifyDefault : Bool
  deriving DecidableEq, Repr

/-- A Caddy handle: the five reference fields are modelled by reference
identities (which shared object each points to), and `isTopLevel` is the
one value field, exactly as in the Go struct. -/
structure Caddy where
  o : Nat
  wg : Nat
  stopChan : Nat
  sigChan : Nat
  notifyDefault : Nat
  isTopLevel : Bool
  deriving DecidableEq, Repr

/-- Shared state right after NewCaddy(stopOnOS): sync.Once unused, no
Notify registration, WaitGroup at zero, no tasks, listener not started,
both channels open. -/
def initState (stopOnOS : Bool) : SysState :=
  { onceDone := false
    osRegistered := false
    pending := 0
    userTasks := 0
    listener := LState.idle
    sigClosed := false
    stopClosed := false
    notifyDefault := stopOnOS }

/-- The handle NewCaddy returns: fresh reference identities and
isTopLevel = true. -/
def NewCaddy : Caddy :=
  { o := 0, wg := 0, stopChan := 0, sigChan := 0, notifyDefault := 0
    isTopLevel := true }

/-- Caddy.listen: under the sync.Once guard, call signal.Notify when
*notifyDefault holds, do wg.Add(1) and start the listener goroutine
(which will block on the receive from sigChan).  A second call is a
no-op. -/
def listen (s : SysState) : SysState :=
  if s.onceDone then s
  else
    { s with
      onceDone := true
      osRegistered := s.notifyDefault
      pending := s.pending + 1
      listener := LState.waiting }

/-- Caddy.copy: a new Caddy sharing every reference field of the
receiver, with isTopLevel set to false. -/
def copy (c : Caddy) : Caddy :=
  { o := c.o
    wg := c.wg
    stopChan := c.stopChan
    sigChan := c.sigChan
    notifyDefault := c.notifyDefault
    isTopLevel := false }

/-- wg.Add(1) followed by starting the tracked user goroutine. -/
def spawnState (s : SysState) : SysState :=
  { s with pending := s.pending + 1, userTasks := s.userTasks + 1 }

/-- What Caddy.Go returns and, on success, which scope the new goroutine
receives and whether that scope was freshly minted by `copy`. -/
inductive GoOutcome
  | stopping
  | started (scope : Caddy) (minted : Bool)
  deriving DecidableEq, Repr

/-- Caddy.Go: run listen, then, when the receiver is top level, take the
non-blocking read of stopChan and return ErrStopping when it is closed,
otherwise mint a copy; when the receiver is not top level, skip the
check and hand the very same handle on.  On success do wg.Add(1) and
start the goroutine. -/
def Go (s : SysState) (c : Caddy) : SysState × GoOutcome :=
  let s1 := listen s
  if c.isTopLevel then
    if s1.stopClosed then (s1, GoOutcome.stopping)
    else (spawnState s1, GoOutcome.started (copy c) true)
  else (spawnState s1, GoOutcome.started c false)

/-- Exit of one tracked user goroutine.  The deferred wg.Done runs
whether the supplied function returned normally or panicked, so
`panicked` does not influence the bookkeeping. -/
def taskExit (s : SysState) (panicked : Bool) : SysState :=
  if 0 < s.userTasks then
    { s with userTasks := s.userTasks - 1, pending := s.pending - 1 }
  else s

/-- The listener goroutine completing: its receive from sigChan returns
(either a value was sent or sigChan was closed; the received value is
discarded), it closes stopChan, and its deferred wg.Done runs. -/
def listenerComplete (s : SysState) : SysState :=
  if s.listener = LState.waiting then
    { s with listener := LState.done, stopClosed := true, pending := s.pending - 1 }
  else s

/-- External code closing the sigChan handle returned by SigChan. -/
def sigChanClose (s : SysState) : SysState :=
  if s.sigClosed then s else { s with sigClosed := true }

/-- Outcome of a send on the unbuffered sigChan, per Go channel
semantics: a send on a closed channel panics; a send rendezvouses when
the listener is blocked receiving; otherwise it blocks until a receiver
appears. -/
inductive SendOutcome
  | delivered
  | blocks
  | panics
  deriving DecidableEq, Repr

/-- Caddy.Stop: the blocking send of syscall.SIGINT on sigChan, composed
with the listener turning the received value into the close of
stopChan. -/
def Stop (s : SysState) : SysState × SendOutcome :=
  if s.sigClosed then (s, SendOutcome.panics)
  else if s.listener = LState.waiting then
    (listenerComplete s, SendOutcome.delivered)
  else (s, SendOutcome.blocks)

/-- External code sending an arbitrary signal value on the handle
returned by SigChan; the listener discards the value it receives, so the
transition does not depend on `v`. -/
def externalWrite (v : Nat) (s : SysState) : SysState × SendOutcome :=
  if s.sigClosed then (s, SendOutcome.panics)
  else if s.listener = LState.waiting then
    (listenerComplete s, SendOutcome.delivered)
  else (s, SendOutcome.blocks)

/-- The shared-state effect of a Go call, keyed by the isTopLevel flag
of the receiver. -/
def goState (s : SysState) (isTop : Bool) : SysState :=
  let s1 := listen s
  if isTop ∧ s1.stopClosed then s1 else spawnState s1

/-- Events of a concurrent execution against one coordinator. -/
inductive Label
  | goTop
  | goSub
  | looperInit
  | taskExit (panicked : Bool)
  | sigReceive
  | sigClose
  deriving DecidableEq, Repr

/-- One event: a Go call on a top-level handle, a Go call on a non
top-level handle, a Looper call reaching its listen, a tracked goroutine
exiting, the listener completing its receive, or external code closing
sigChan. -/
def stepL (s : SysState) : Label → SysState
  | Label.goTop => goState s true
  | Label.goSub => goState s false
  | Label.looperInit => listen s
  | Label.taskExit p => taskExit s p
  | Label.sigReceive => listenerComplete s
  | Label.sigClose => sigChanClose s

/-- Run a list of events from a state. -/
def run (s : SysState) : List Label → SysState
  | [] => s
  | l :: ls => run (stepL s l) ls

/-! ## The Looper loop

Caddy.Looper runs in the calling goroutine.  After its listen and the
tick setup it optionally runs `f` once, then loops on a select over the
tick channel and stopChan.  The loop is modelled against an environment
giving, per instant of a discrete clock, whether stopChan is closed,
whether the tick channel is ready (with interval 0 the tick channel is a
closed channel, hence always ready), and which branch the Go scheduler
picks when both channels of the select are ready. -/

/-- The branch a select picks when both of its channels are ready. -/
inductive SelChoice
  | tick
  | stopc
  deriving DecidableEq, Repr

/-- Environment of one Looper call: stopChan state over time, tick
readiness over time, and the scheduler choice for ties. -/
structure LoopEnv where
  stopAt : Nat → Bool
  tickAt : Nat → Bool
  choose : Nat → SelChoice

/-- stopChan is one-shot: once closed it stays closed. -/
def StopMono (f : Nat → Bool) : Prop :=
  ∀ u v : Nat, u ≤ v → f u = true → f v = true

/-- Observable events of one Looper call: a run of the supplied
function (stamped with the instant right after its guarding check), or
the return of Looper (stamped with the instant of the read of stopChan
that caused it). -/
inductive LEvent
  | fRun (t : Nat)
  | ret (t : Nat)
  deriving DecidableEq, Repr

/-- The for loop of Caddy.Looper, one select per iteration.  At instant
t: if the stopChan case is taken (stopChan closed, and either the tick
channel is not ready or the scheduler picks the stopChan case), Looper
returns.  Otherwise, if the tick channel is ready, the tick case runs
its inner non-blocking select at instant t+1: if stopChan is closed by
then Looper returns, else `f` runs and the loop continues at t+2.  If
neither channel is ready the select stays blocked and time passes.
`fuel` bounds the number of modelled instants (the loop itself has no
bound). -/
def loopAux (env : LoopEnv) : Nat → Nat → List LEvent
  | 0, _ => []
  | fuel + 1, t =>
    if env.stopAt t = true ∧ (env.tickAt t = false ∨ env.choose t = SelChoice.stopc) then
      [LEvent.ret t]
    else if env.tickAt t = true then
      if env.stopAt (t + 1) = true then [LEvent.ret (t + 1)]
      else LEvent.fRun (t + 1) :: loopAux env fuel (t + 2)
    else loopAux env fuel (t + 1)

/-- A whole Looper call: when runImmediately holds, `f` runs once at
instant 0 before the loop, which starts at instant 1. -/
def looperTrace (env : LoopEnv) (runImmediately : Bool) (fuel : Nat) : List LEvent :=
  (if runImmediately then [LEvent.fRun 0] else []) ++ loopAux env fuel 1

/-- Number of runs of the supplied function in a Looper trace. -/
def countFRuns (tr : List LEvent) : Nat :=
  tr.countP fun e => match e with | LEvent.fRun _ => true | LEvent.ret _ => false

/-! ## Derived notions used by the statements -/

/-- What the listener goroutine contributes to the WaitGroup counter:
wg.Add(1) ran at its start and its deferred wg.Done at its exit. -/
def waitContrib (l : LState) : Int :=
  if l = LState.waiting then 1 else 0

/-- Invariant tying the WaitGroup counter to the running goroutines of a
coordinator built by NewCaddy(b). -/
def Inv (b : Bool) (s : SysState) : Prop :=
  s.pending = s.userTasks + waitContrib s.listener
  ∧ (s.listener ≠ LState.idle → s.onceDone = true)
  ∧ (s.osRegistered = true → s.notifyDefault = true)
  ∧ (s.stopClosed = true → s.listener = LState.done)
  ∧ s.notifyDefault = b

/-- Event k of the execution `ls` from NewCaddy(b) is the one that
starts the background listener (the sync.Once body runs across it). -/
def ListenStart (b : Bool) (ls : List Label) (k : Nat) : Prop :=
  (run (initState b) (ls.take k)).onceDone = false
  ∧ (run (initState b) (ls.take (k + 1))).onceDone = true

/-- Event k of the execution `ls` from NewCaddy(b) is the one that
closes stopChan (the stop broadcast fires across it). -/
def StopFire (b : Bool) (ls : List Label) (k : Nat) : Prop :=
  (run (initState b) (ls.take k)).stopClosed = false
  ∧ (run (initState b) (ls.take (k + 1))).stopClosed = true

/-- A concrete Looper environment: stopChan closes at instant 4, the
tick channel is always ready (interval 0), ties go to the tick case. -/
def envW : LoopEnv :=
  { stopAt := fun u => decide (4 ≤ u)
    tickAt := fun _ => true
    choose := fun _ => SelChoice.tick }

/-- The coordinator state after NewCaddy(false), one Go call on the root
handle, and a first Stop call consumed by the listener. -/
def afterFirstStop : SysState :=
  (Stop (run (initState false) [Label.goTop])).1

/-! ## Helper lemmas -/

lemma listen_stopClosed (s : SysState) : (listen s).stopClosed = s.stopClosed := by
  unfold listen; split <;> rfl

lemma listen_userTasks (s : SysState) : (listen s).userTasks = s.userTasks := by
  unfold listen; split <;> rfl

lemma run_append (s : SysState) (as bs : List Label) :
    run s (as ++ bs) = run (run s as) bs := by
  induction as generalizing s with
  | nil => rfl
  | cons a as ih => simp only [List.cons_append, run]; exact ih _

lemma take_succ_of_getElem (ls : List Label) :
    ∀ (k : Nat) (l : Label), ls[k]? = some l → ls.take (k + 1) = ls.take k ++ [l] := by
  induction ls with
  | nil => intro k l h; simp at h
  | cons a as ih =>
    intro k l h
    cases k with
    | zero => simp at h; simp [h]
    | succ k => simp at h; simp [List.take_succ_cons, ih k l h]

lemma run_take_succ (ls : List Label) (k : Nat) (l : Label) (s : SysState)
    (h : ls[k]? = some l) :
    run s (ls.take (k + 1)) = stepL (run s (ls.take k)) l := by
  rw [take_succ_of_getElem ls k l h, run_append]; rfl

lemma take_stall (ls : List Label) (k : Nat) (h : ls[k]? = none) :
    ls.take (k + 1) = ls.take k := by
  have hlen : ls.length ≤ k := by
    by_contra hc
    push_neg at hc
    exact absurd h (by simp [List.getElem?_eq_getElem hc])
  rw [List.take_of_length_le hlen, List.take_of_length_le (Nat.le_succ_of_le hlen)]

lemma run_field_take_mono (f : SysState → Bool)
    (hf : ∀ s l, f s = true → f (stepL s l) = true)
    (s : SysState) (ls : List Label) {i j : Nat} (hij : i ≤ j)
    (h : f (run s (ls.take i)) = true) : f (run s (ls.take j)) = true := by
  induction j, hij using Nat.le_induction with
  | base => exact h
  | succ j _ ih =>
    cases hk : ls[j]? with
    | none => rw [take_stall ls j hk]; exact ih
    | some l => rw [run_take_succ ls j l s hk]; exact hf _ l ih

lemma stepL_onceDone (s : SysState) (l : Label) (h : s.onceDone = true) :
    (stepL s l).onceDone = true := by
  cases l <;>
    simp only [stepL, goState, listen, spawnState, taskExit, listenerComplete,
      sigChanClose, h, if_true] <;>
    split <;> simp [h]

lemma goState_stopClosed (s : SysState) (b : Bool) :
    (goState s b).stopClosed = s.stopClosed := by
  simp only [goState, spawnState]
  split <;> simp [listen_stopClosed]

lemma taskExit_stopClosed (s : SysState) (p : Bool) :
    (taskExit s p).stopClosed = s.stopClosed := by
  unfold taskExit; split <;> rfl

lemma sigChanClose_stopClosed (s : SysState) :
    (sigChanClose s).stopClosed = s.stopClosed := by
  unfold sigChanClose; split <;> rfl

lemma stepL_stopClosed (s : SysState) (l : Label) (h : s.stopClosed = true) :
    (stepL s l).stopClosed = true := by
  cases l with
  | goTop => rw [show stepL s Label.goTop = goState s true from rfl, goState_stopClosed]; exact h
  | goSub => rw [show stepL s Label.goSub = goState s false from rfl, goState_stopClosed]; exact h
  | looperInit => rw [show stepL s Label.looperInit = listen s from rfl, listen_stopClosed]; exact h
  | taskExit p => rw [show stepL s (Label.taskExit p) = taskExit s p from rfl, taskExit_stopClosed]; exact h
  | sigReceive =>
    show (listenerComplete s).stopClosed = true
    unfold listenerComplete; split <;> simp [h]
  | sigClose => rw [show stepL s Label.sigClose = sigChanClose s from rfl, sigChanClose_stopClosed]; exact h

lemma stepL_done (s : SysState) (l : Label) (h1 : s.onceDone = true)
    (h2 : s.listener = LState.done) :
    (stepL s l).onceDone = true ∧ (stepL s l).listener = LState.done := by
  cases l <;>
    simp only [stepL, goState, listen, spawnState, taskExit, listenerComplete,
      sigChanClose, h1, if_true] <;>
    first
    | (split <;> simp_all)
    | simp_all

lemma run_done (ls : List Label) (s : SysState) (h1 : s.onceDone = true)
    (h2 : s.listener = LState.done) :
    (run s ls).onceDone = true ∧ (run s ls).listener = LState.done := by
  induction ls generalizing s with
  | nil => exact ⟨h1, h2⟩
  | cons l ls ih =>
    obtain ⟨g1, g2⟩ := stepL_done s l h1 h2
    exact ih (stepL s l) g1 g2

lemma stepL_stopClosed_flip (s : SysState) (l : Label)
    (h0 : (stepL s l).stopClosed = true) (h1 : s.stopClosed = false) :
    l = Label.sigReceive ∧ s.listener = LState.waiting := by
  cases l with
  | goTop =>
    rw [show stepL s Label.goTop = goState s true from rfl, goState_stopClosed, h1] at h0
    exact absurd h0 (by simp)
  | goSub =>
    rw [show stepL s Label.goSub = goState s false from rfl, goState_stopClosed, h1] at h0
    exact absurd h0 (by simp)
  | looperInit =>
    rw [show stepL s Label.looperInit = listen s from rfl, listen_stopClosed, h1] at h0
    exact absurd h0 (by simp)
  | taskExit p =>
    rw [show stepL s (Label.taskExit p) = taskExit s p from rfl, taskExit_stopClosed, h1] at h0
    exact absurd h0 (by simp)
  | sigReceive =>
    refine ⟨rfl, ?_⟩
    by_contra hw
    have heq : listenerComplete s = s := by unfold listenerComplete; simp [hw]
    rw [show stepL s Label.sigReceive = listenerComplete s from rfl, heq, h1] at h0
    exact absurd h0 (by simp)
  | sigClose =>
    rw [show stepL s Label.sigClose = sigChanClose s from rfl, sigChanClose_stopClosed, h1] at h0
    exact absurd h0 (by simp)

lemma inv_init (b : Bool) : Inv b (initState b) := by
  refine ⟨by simp [initState, waitContrib], ?_, ?_, ?_, rfl⟩ <;> simp [initState]

lemma inv_listen (b : Bool) (s : SysState) (h : Inv b s) : Inv b (listen s) := by
  obtain ⟨h1, h2, h3, h4, h5⟩ := h
  unfold listen
  split
  · exact ⟨h1, h2, h3, h4, h5⟩
  · rename_i hod
    have hidle : s.listener = LState.idle := by
      by_contra hne
      exact absurd (h2 hne) (by simpa using hod)
    refine ⟨?_, fun _ => rfl, fun h => h, ?_, h5⟩
    · simp only [waitContrib, hidle] at h1
      simp only [waitContrib]
      simp at h1 ⊢
      omega
    · intro hst
      exact absurd (h4 hst) (by rw [hidle]; simp)

lemma inv_spawn (b : Bool) (s : SysState) (h : Inv b s) : Inv b (spawnState s) := by
  obtain ⟨h1, h2, h3, h4, h5⟩ := h
  refine ⟨?_, h2, h3, h4, h5⟩
  simp only [spawnState]
  push_cast
  omega

lemma inv_goState (b : Bool) (s : SysState) (t : Bool) (h : Inv b s) :
    Inv b (goState s t) := by
  simp only [goState]
  split
  · exact inv_listen b s h
  · exact inv_spawn b (listen s) (inv_listen b s h)

lemma inv_taskExit (b : Bool) (s : SysState) (p : Bool) (h : Inv b s) :
    Inv b (taskExit s p) := by
  obtain ⟨h1, h2, h3, h4, h5⟩ := h
  unfold taskExit
  split
  · rename_i hpos
    refine ⟨?_, h2, h3, h4, h5⟩
    simp only []
    have : ((s.userTasks - 1 : Nat) : Int) = (s.userTasks : Int) - 1 := by
      omega
    rw [this]
    omega
  · exact ⟨h1, h2, h3, h4, h5⟩

lemma inv_listenerComplete (b : Bool) (s : SysState) (h : Inv b s) :
    Inv b (listenerComplete s) := by
  obtain ⟨h1, h2, h3, h4, h5⟩ := h
  unfold listenerComplete
  split
  · rename_i hw
    refine ⟨?_, fun _ => h2 (by rw [hw]; simp), h3, fun _ => rfl, h5⟩
    simp only [waitContrib, hw] at h1
    simp only [waitContrib]
    simp at h1 ⊢
    omega
  · exact ⟨h1, h2, h3, h4, h5⟩

lemma inv_sigClose (b : Bool) (s : SysState) (h : Inv b s) :
    Inv b (sigChanClose s) := by
  obtain ⟨h1, h2, h3, h4, h5⟩ := h
  unfold sigChanClose
  split
  · exact ⟨h1, h2, h3, h4, h5⟩
  · exact ⟨h1, h2, h3, h4, h5⟩

lemma inv_step (b : Bool) (s : SysState) (l : Label) (h : Inv b s) :
    Inv b (stepL s l) := by
  cases l with
  | goTop => exact inv_goState b s true h
  | goSub => exact inv_goState b s false h
  | looperInit => exact inv_listen b s h
  | taskExit p => exact inv_taskExit b s p h
  | sigReceive => exact inv_listenerComplete b s h
  | sigClose => exact inv_sigClose b s h

lemma inv_run (b : Bool) (ls : List Label) (s : SysState) (h : Inv b s) :
    Inv b (run s ls) := by
  induction ls generalizing s with
  | nil => exact h
  | cons l ls ih => exact ih (stepL s l) (inv_step b s l h)

lemma inv_reach (b : Bool) (ls : List Label) : Inv b (run (initState b) ls) :=
  inv_run b ls (initState b) (inv_init b)

lemma loopAux_fRun (env : LoopEnv) :
    ∀ fuel t u : Nat, LEvent.fRun u ∈ loopAux env fuel t → env.stopAt u = false := by
  intro fuel
  induction fuel with
  | zero => intro t u h; simp [loopAux] at h
  | succ fuel ih =>
    intro t u h
    unfold loopAux at h
    split at h
    · simp at h
    · split at h
      · split at h
        · simp at h
        · rename_i hst
          rcases List.mem_cons.mp h with h | h
          · injection h with hu
            subst hu
            simpa using hst
          · exact ih (t + 2) u h
      · exact ih (t + 1) u h

lemma loopAux_ret (env : LoopEnv) :
    ∀ fuel t u : Nat, LEvent.ret u ∈ loopAux env fuel t → env.stopAt u = true := by
  intro fuel
  induction fuel with
  | zero => intro t u h; simp [loopAux] at h
  | succ fuel ih =>
    intro t u h
    unfold loopAux at h
    split at h
    · rename_i hc
      rw [List.mem_singleton] at h
      injection h with hu
      subst hu
      exact hc.1
    · split at h
      · split at h
        · rename_i hst
          rw [List.mem_singleton] at h
          injection h with hu
          subst hu
          exact hst
        · rcases List.mem_cons.mp h with h | h
          · cases h
          · exact ih (t + 2) u h
      · exact ih (t + 1) u h

lemma loopAux_count_allstop (env : LoopEnv) (fuel t : Nat)
    (hall : ∀ u, env.stopAt u = true) : countFRuns (loopAux env fuel t) = 0 := by
  cases fuel with
  | zero => rfl
  | succ fuel =>
    unfold loopAux
    by_cases htick : env.tickAt t = true
    · by_cases hch : env.choose t = SelChoice.stopc
      · rw [if_pos ⟨hall t, Or.inr hch⟩]; rfl
      · have hneg : ¬(env.stopAt t = true
            ∧ (env.tickAt t = false ∨ env.choose t = SelChoice.stopc)) := by
          rintro ⟨-, h | h⟩
          · simp [htick] at h
          · exact hch h
        rw [if_neg hneg, if_pos htick, if_pos (hall (t + 1))]; rfl
    · rw [if_pos ⟨hall t, Or.inl (by simpa using htick)⟩]; rfl

lemma envW_mono : StopMono envW.stopAt := by
  intro u v huv h
  simp only [envW, decide_eq_true_eq] at h ⊢
  omega

/-! ## The claims -/

/-- C1: Go on a root handle after the stop broadcast has fired returns
ErrStopping and does not start the task; and this is the only error
condition: the outcome of Go is `stopping` exactly when the handle is
top level and stopChan is closed (every other modelled operation
returns no error by its type). -/
theorem Go_root_stopping_iff (s : SysState) (c : Caddy) :
    ((Go s c).2 = GoOutcome.stopping ↔ c.isTopLevel = true ∧ s.stopClosed = true)
    ∧ ((Go s c).2 = GoOutcome.stopping → (Go s c).1.userTasks = s.userTasks) := by
  have hls := listen_stopClosed s
  have hlu := listen_userTasks s
  simp only [Go]
  cases hc : c.isTopLevel <;> cases hst : s.stopClosed <;>
    simp [hc, hst, hls, hlu, spawnState]

/-- C2: Go on a non-root handle succeeds whatever the stop state, and
the very same handle — not a copy — is passed to the new goroutine
(outcome `started c false`: the task receives `c` itself and nothing
was minted). -/
theorem Go_nonroot_succeeds (s : SysState) (c : Caddy)
    (h : c.isTopLevel = false) :
    Go s c = (spawnState (listen s), GoOutcome.started c false) := by
  simp [Go, h]

/-- Witness for C2 at a concrete stopped state and a concrete non-root
handle. -/
theorem Go_nonroot_succeeds_witness :
    Go { initState false with stopClosed := true } (copy NewCaddy)
      = (spawnState (listen { initState false with stopClosed := true }),
        GoOutcome.started (copy NewCaddy) false) :=
  Go_nonroot_succeeds { initState false with stopClosed := true } (copy NewCaddy) rfl

/-- C3: along every execution from NewCaddy the WaitGroup counter
equals the number of running tracked goroutines (user tasks plus the
listener while it blocks), hence never goes negative; a task exit
decrements counter and task count by exactly one when a task runs, and
the deferred decrement is identical whether the task function panicked
or returned normally. -/
theorem pending_nonneg_and_paired (b p q : Bool) (ls : List Label) (s : SysState) :
    0 ≤ (run (initState b) ls).pending
    ∧ (run (initState b) ls).pending
        = (run (initState b) ls).userTasks + waitContrib (run (initState b) ls).listener
    ∧ taskExit s p = taskExit s q
    ∧ (0 < s.userTasks →
        (taskExit s p).pending = s.pending - 1
        ∧ (taskExit s p).userTasks = s.userTasks - 1)
    ∧ (s.userTasks = 0 → taskExit s p = s) := by
  obtain ⟨h1, -, -, -, -⟩ := inv_reach b ls
  refine ⟨?_, h1, rfl, ?_, ?_⟩
  · rw [h1]
    unfold waitContrib
    split <;> omega
  · intro hpos
    unfold taskExit
    rw [if_pos hpos]
    exact ⟨rfl, rfl⟩
  · intro hz
    unfold taskExit
    rw [if_neg (by omega)]

/-- C4 as claimed is violated by the code (code bug): Stop sends on the
raw unbuffered sigChan.  After a first Stop has been consumed, the
listener — the only reader — has exited and never restarts, so a second
Stop blocks forever; after the SigChan handle has been closed, Stop
panics.  This theorem evaluates the embedded code on those executions. -/
theorem Stop_second_call_blocked :
    (Stop (run (initState false) [Label.goTop])).2 = SendOutcome.delivered
    ∧ (Stop afterFirstStop).2 = SendOutcome.blocks
    ∧ (∀ ls : List Label,
        (Stop (run afterFirstStop ls)).2 = SendOutcome.blocks
        ∨ (Stop (run afterFirstStop ls)).2 = SendOutcome.panics)
    ∧ (Stop (sigChanClose afterFirstStop)).2 = SendOutcome.panics := by
  refine ⟨by decide, by decide, ?_, by decide⟩
  intro ls
  have hd : (run afterFirstStop ls).listener = LState.done :=
    (run_done ls afterFirstStop (by decide) (by decide)).2
  unfold Stop
  split
  · right; rfl
  · rw [if_neg (by rw [hd]; simp)]
    left; rfl

/-- C5: in every modelled run of the Looper loop with a one-shot
stopChan, the supplied function runs only at instants where the inner
re-check still read stopChan open, Looper returns only at instants
where stopChan is observed closed (observing stop is its only exit),
and every function run strictly precedes every return instant — so no
iteration starts after stop is observed; at most the single iteration
already past its re-check completes after the broadcast. -/
theorem Looper_no_run_after_stop (env : LoopEnv) (fuel t : Nat)
    (hmono : StopMono env.stopAt) :
    (∀ u, LEvent.fRun u ∈ loopAux env fuel t → env.stopAt u = false)
    ∧ (∀ u, LEvent.ret u ∈ loopAux env fuel t → env.stopAt u = true)
    ∧ (∀ u v, LEvent.ret u ∈ loopAux env fuel t →
        LEvent.fRun v ∈ loopAux env fuel t → v < u) := by
  refine ⟨loopAux_fRun env fuel t, loopAux_ret env fuel t, ?_⟩
  intro u v hr hf
  by_contra hc
  push_neg at hc
  have hv := hmono u v hc (loopAux_ret env fuel t u hr)
  rw [loopAux_fRun env fuel t v hf] at hv
  cases hv

/-- Witness for C5: with stopChan closing at instant 4 and a zero
interval, the run is one function run at instant 2 followed by the
return at instant 4. -/
theorem Looper_no_run_after_stop_witness :
    envW.stopAt 2 = false ∧ envW.stopAt 4 = true :=
  ⟨(Looper_no_run_after_stop envW 10 1 envW_mono).1 2 (by decide),
    (Looper_no_run_after_stop envW 10 1 envW_mono).2.1 4 (by decide)⟩

/-- C6: sending any value on the SigChan handle is the identical
transition to calling Stop, and closing the handle (after which the
listener receive completes on the closed channel) reaches the very same
state except for sigChan being marked closed; each of the three routes
makes the listener close stopChan. -/
theorem sigchan_routes_equiv (v : Nat) (s : SysState) :
    externalWrite v s = Stop s
    ∧ (s.listener = LState.waiting → s.sigClosed = false →
        listenerComplete (sigChanClose s) = { (Stop s).1 with sigClosed := true }
        ∧ (listenerComplete (sigChanClose s)).stopClosed = true
        ∧ (Stop s).1.stopClosed = true
        ∧ (Stop s).2 = SendOutcome.delivered) := by
  constructor
  · rfl
  · intro hw hc
    have h1 : sigChanClose s = { s with sigClosed := true } := by
      unfold sigChanClose; rw [if_neg (by simp [hc])]
    have h2 : Stop s = (listenerComplete s, SendOutcome.delivered) := by
      unfold Stop; rw [if_neg (by simp [hc]), if_pos hw]
    rw [h1, h2]
    have hw2 : ({ s with sigClosed := true } : SysState).listener = LState.waiting := hw
    refine ⟨?_, ?_, ?_, rfl⟩
    · unfold listenerComplete
      rw [if_pos hw2, if_pos hw]
    · unfold listenerComplete
      rw [if_pos hw2]
    · unfold listenerComplete
      rw [if_pos hw]

/-- Witness for C6 at a concrete state whose listener blocks on
sigChan. -/
theorem sigchan_routes_equiv_witness :
    externalWrite 7 (run (initState false) [Label.goTop])
        = Stop (run (initState false) [Label.goTop])
    ∧ (listenerComplete (sigChanClose (run (initState false) [Label.goTop]))).stopClosed
        = true :=
  ⟨(sigchan_routes_equiv 7 (run (initState false) [Label.goTop])).1,
    (((sigchan_routes_equiv 7 (run (initState false) [Label.goTop])).2
      (by decide) (by decide)).2).1⟩

/-- C7: along every execution from NewCaddy(b): the sync.Once body that
starts the listener runs across at most one event; while the listener
blocks it is counted by the same WaitGroup as user tasks; signal.Notify
has been called only when b is true; the stop broadcast fires across at
most one event; and the event it fires across is a listener receive
taken while the listener was blocked on sigChan. -/
theorem listener_once_and_broadcast_once (b : Bool) (ls : List Label) :
    (∀ i j : Nat, i < j → ListenStart b ls i → ¬ListenStart b ls j)
    ∧ ((run (initState b) ls).listener = LState.waiting →
        1 ≤ (run (initState b) ls).pending)
    ∧ ((run (initState b) ls).osRegistered = true → b = true)
    ∧ (∀ i j : Nat, i < j → StopFire b ls i → ¬StopFire b ls j)
    ∧ (∀ k : Nat, StopFire b ls k →
        ls[k]? = some Label.sigReceive
        ∧ (run (initState b) (ls.take k)).listener = LState.waiting) := by
  refine ⟨?_, ?_, ?_, ?_, ?_⟩
  · intro i j hij hi hj
    have : (run (initState b) (ls.take j)).onceDone = true :=
      run_field_take_mono SysState.onceDone stepL_onceDone (initState b) ls hij hi.2
    rw [hj.1] at this
    cases this
  · intro hw
    obtain ⟨h1, -, -, -, -⟩ := inv_reach b ls
    rw [h1, hw]
    unfold waitContrib
    simp
  · intro hos
    obtain ⟨-, -, h3, -, h5⟩ := inv_reach b ls
    rw [← h5]
    exact h3 hos
  · intro i j hij hi hj
    have : (run (initState b) (ls.take j)).stopClosed = true :=
      run_field_take_mono SysState.stopClosed stepL_stopClosed (initState b) ls hij hi.2
    rw [hj.1] at this
    cases this
  · intro k hk
    have hk1 := hk.1
    have hk2 := hk.2
    cases hg : ls[k]? with
    | none =>
      rw [take_stall ls k hg, hk1] at hk2
      exact absurd hk2 (by decide)
    | some l =>
      have hs := run_take_succ ls k l (initState b) hg
      rw [hs] at hk2
      obtain ⟨hl, hw⟩ := stepL_stopClosed_flip _ l hk2 hk1
      exact ⟨by rw [hl], hw⟩

/-- C8: with runImmediately = true the supplied function runs once at
instant 0, before the wait loop, whatever the environment — even when
stopChan is closed from the start — and with stopChan closed throughout
the count of its runs is exactly one. -/
theorem Looper_runImmediately_unconditional (env : LoopEnv) (fuel : Nat) :
    (looperTrace env true fuel).head? = some (LEvent.fRun 0)
    ∧ ((∀ u, env.stopAt u = true) → countFRuns (looperTrace env true fuel) = 1) := by
  constructor
  · rfl
  · intro hall
    show countFRuns (LEvent.fRun 0 :: loopAux env fuel 1) = 1
    have := loopAux_count_allstop env fuel 1 hall
    simp [countFRuns] at this ⊢
    exact this

/-- C9: Caddy.copy shares every reference field of its parent, differs
from it only in the isTopLevel flag (set to false at creation and
never touched by any operation), and a successful Go on a root handle
mints exactly this copy. -/
theorem copy_shares_refs (c : Caddy) (s : SysState) :
    (copy c).o = c.o ∧ (copy c).wg = c.wg ∧ (copy c).stopChan = c.stopChan
    ∧ (copy c).sigChan = c.sigChan ∧ (copy c).notifyDefault = c.notifyDefault
    ∧ (copy c).isTopLevel = false
    ∧ copy c = { c with isTopLevel := false }
    ∧ (c.isTopLevel = true → s.stopClosed = false →
        (Go s c).2 = GoOutcome.started (copy c) true) := by
  refine ⟨rfl, rfl, rfl, rfl, rfl, rfl, rfl, ?_⟩
  intro ht hs
  simp [Go, ht, listen_stopClosed, hs]

/-- C10: when Go on a root handle returns ErrStopping, the state is
exactly the one the idempotent listen left: no user task was scheduled,
nothing was minted, and the WaitGroup moved only by the one-time
listener registration. -/
theorem Go_stopping_no_side_effects (s : SysState) (c : Caddy)
    (h1 : c.isTopLevel = true) (h2 : s.stopClosed = true) :
    Go s c = (listen s, GoOutcome.stopping)
    ∧ (listen s).userTasks = s.userTasks
    ∧ (listen s).pending = s.pending + (if s.onceDone = true then 0 else 1) := by
  refine ⟨?_, listen_userTasks s, ?_⟩
  · simp [Go, h1, listen_stopClosed, h2]
  · unfold listen
    split <;> simp_all

/-- Witness for C10 at a concrete stopped root state. -/
theorem Go_stopping_no_side_effects_witness :
    Go { initState false with stopClosed := true } NewCaddy
      = (listen { initState false with stopClosed := true }, GoOutcome.stopping)
    ∧ (listen { initState false with stopClosed := true }).userTasks
        = ({ initState false with stopClosed := true } : SysState).userTasks
    ∧ (listen { initState false with stopClosed := true }).pending
        = ({ initState false with stopClosed := true } : SysState).pending
          + (if ({ initState false with stopClosed := true } : SysState).onceDone = true
              then 0 else 1) :=
  Go_stopping_no_side_effects { initState false with stopClosed := true } NewCaddy rfl rfl

end Spackler
